import Mathlib

/-!
Verification of the Client session layer of the y3-helper style
host-tool-to-runtime bridge ("cheat-engine-lua-intellisense" repository).

The repository ships a Jest test file for the `Client` class; the class
itself lives in a module (`./client`) that is not part of the sources here.
The definitions below therefore model the Client core from the
specification (message routing in `recv`, outbound correlation in
`request`, print buffering, console lifecycle, disposal), keeping the
names the test file reveals (`requestMap`, `requestID`, `printBuffer`,
`terminalHistory`, `createTerminal`, `applyPrintBuffer`, ...).  The one
function defined directly in the source file, the module-local `expect`
stub at its end, is embedded from the source.
-/

namespace ClientSpec

/-- Modelled from the spec (§3 Data Model): an inbound structured message.
A Response carries either a `result` or an `error` string, mutually
exclusive; a Notification has no id. -/
inductive Msg (α : Type) where
  | notif (method : String) (params : α)
  | request (method : String) (id : Nat) (params : α)
  | responseResult (id : Nat) (result : α)
  | responseError (id : Nat) (error : String)
deriving DecidableEq

/-- Modelled from the spec (§4.1, §4.2): outbound messages handed to the
injected `send` callback. -/
inductive OutMsg (α : Type) where
  | resultResp (id : Nat) (result : α)
  | errorResp (id : Nat) (error : String)
  | requestMsg (method : String) (id : Nat) (params : α)
  | notifyMsg (method : String) (params : α)
deriving DecidableEq

/-- Modelled from the spec (§3): the Client's per-connection state.
`requestMap` holds the ids of pending outbound requests (the table keyed
by allocated integer id); `requestID` is the monotone id counter starting
at 0; `closed` is the monotone false-to-true disposal flag; `printBuffer`
is present exactly while a sink write is in flight. -/
structure ClientState (α : Type) where
  requestID : Nat
  requestMap : List Nat
  closed : Bool
  printBuffer : Option (List String)
deriving DecidableEq

/-- Modelled from the spec (§4.4): a freshly constructed Client:
counter at 0, empty pending table, not closed, no print in flight. -/
def initClient (α : Type) : ClientState α :=
  { requestID := 0, requestMap := [], closed := false, printBuffer := none }

/-- Observable effects of one `recv` call: messages sent, error-log
entries, pending futures resolved (with a value, or `none` as the
"no value" signal), and handlers invoked. -/
structure RecvOut (α : Type) where
  sent : List (OutMsg α)
  logged : List String
  resolved : List (Nat × Option α)
  invoked : List (String × α)
deriving DecidableEq

/-- The empty effect record: `recv` produced no observable effect. -/
def RecvOut.none (α : Type) : RecvOut α :=
  { sent := [], logged := [], resolved := [], invoked := [] }

/-- Modelled from the spec (§4.1 Message Routing & Dispatch): `recv`
classifies the message and routes it.  Notifications go to the
notification-handler mapping `methods` (unknown methods silently
ignored); Requests go to the request-handler mapping `requests`
(success sends `{id, result}`, a throwing handler logs and sends
`{id, error}`, an unknown method sends the localized not-found error
without logging); Responses resolve the pending entry after removing it
(unmatched ids silently ignored).  A throwing handler is modelled by the
handler returning `Except.error`. -/
def recv {α : Type} (methods : String → Option (α → Except String Unit))
    (requests : String → Option (α → Except String α))
    (st : ClientState α) (m : Msg α) : ClientState α × RecvOut α :=
  match m with
  | .notif method params =>
    match methods method with
    | some _ => (st, { (RecvOut.none α) with invoked := [(method, params)] })
    | none => (st, RecvOut.none α)
  | .request method id params =>
    match requests method with
    | some h =>
      match h params with
      | .ok r =>
        (st, { (RecvOut.none α) with
                 sent := [.resultResp id r],
                 invoked := [(method, params)] })
      | .error e =>
        (st, { (RecvOut.none α) with
                 sent := [.errorResp id e],
                 logged := [e],
                 invoked := [(method, params)] })
    | none =>
      (st, { (RecvOut.none α) with
             sent := [.errorResp id ("未找到方法\"" ++ method ++ "\"")] })
  | .responseResult id v =>
    if id ∈ st.requestMap then
      ({ st with requestMap := st.requestMap.erase id },
       { (RecvOut.none α) with resolved := [(id, some v)] })
    else (st, RecvOut.none α)
  | .responseError id e =>
    if id ∈ st.requestMap then
      ({ st with requestMap := st.requestMap.erase id },
       { (RecvOut.none α) with
           resolved := [(id, none)],
           logged := [e] })
    else (st, RecvOut.none α)

/-- Result of one `request` call: the messages sent, log entries, and
`immediate = some none` when the returned future resolved at once with
the "no value" signal (closed Client); `immediate = none` when the
future is left pending in the table. -/
structure ReqOut (α : Type) where
  sent : List (OutMsg α)
  logged : List String
  immediate : Option (Option α)
deriving DecidableEq

/-- Modelled from the spec (§4.2 Outbound Request Correlation): if the
Client is closed, resolve immediately to "no value" with no send and no
table entry; otherwise allocate the next id, register the pending entry,
and send `{method, id, params}`. -/
def request {α : Type} (st : ClientState α) (method : String) (params : α) :
    ClientState α × ReqOut α :=
  if st.closed then
    (st, { sent := [], logged := [], immediate := some none })
  else
    ({ st with requestID := st.requestID + 1,
               requestMap := st.requestMap ++ [st.requestID] },
     { sent := [.requestMsg method st.requestID params], logged := [],
       immediate := none })

/-- Modelled from the spec (§4.2): `notify` always sends `{method, params}`
with no id and never touches the pending table. -/
def notify {α : Type} (st : ClientState α) (method : String) (params : α) :
    ClientState α × List (OutMsg α) :=
  (st, [.notifyMsg method params])

/-- Run a sequence of `request` calls in order, collecting every sent
message. -/
def requestSeq {α : Type} (st : ClientState α) :
    List (String × α) → ClientState α × List (OutMsg α)
  | [] => (st, [])
  | (m, p) :: rest =>
    let r := request st m p
    let r' := requestSeq r.1 rest
    (r'.1, r.2.sent ++ r'.2)

/-- The id carried by an outbound message, if any. -/
def OutMsg.idOf {α : Type} : OutMsg α → Option Nat
  | .resultResp id _ => some id
  | .errorResp id _ => some id
  | .requestMsg _ id _ => some id
  | .notifyMsg _ _ => Option.none

/-- An event at the print-buffering layer: a call to `Client.print`, or
the completion of the sink write currently in flight. -/
inductive PrintEv where
  | printCall (text : String)
  | writeDone
deriving DecidableEq

/-- Modelled from the spec (§4.3 Print buffering), acting on the
`printBuffer` field alone.  `print text` with no buffer starts the sink
write of `text` at once and creates the empty buffer as the in-flight
marker; with a buffer present it only appends.  When the in-flight
write completes (`applyPrintBuffer`), a non-empty buffer is flushed as
one write of the lines joined by a newline (staying in flight), and an
empty buffer is cleared.  The second component lists the sink writes the
step issues. -/
def printStep (buf : Option (List String)) : PrintEv → Option (List String) × List String
  | .printCall t =>
    match buf with
    | Option.none => (some [], [t])
    | some q => (some (q ++ [t]), [])
  | .writeDone =>
    match buf with
    | Option.none => (Option.none, [])
    | some [] => (Option.none, [])
    | some (l :: ls) => (some [], [String.intercalate "\n" (l :: ls)])

/-- Run the print layer over a sequence of events, collecting the sink
writes in order. -/
def printRun (buf : Option (List String)) : List PrintEv → Option (List String) × List String
  | [] => (buf, [])
  | e :: es =>
    let r := printStep buf e
    let r' := printRun r.1 es
    (r'.1, r.2 ++ r'.2)

/-- The texts passed to `print` by a sequence of events, in call order. -/
def printedTexts : List PrintEv → List String
  | [] => []
  | .printCall t :: es => t :: printedTexts es
  | .writeDone :: es => printedTexts es

/-- The Output Sink ("Terminal") collaborator, as far as the Client core
observes it: a display title, the input-enabled switch, the re-wired
apply handler, and the multi-line-mode flag. -/
structure Terminal where
  title : String
  inputEnabled : Bool
  applyWired : Bool
  multiMode : Bool
deriving DecidableEq

/-- Modelled from the spec (§6 Console boundary): construction takes a
display title; input starts disabled and no handler is wired until the
Client re-wires them. -/
def Terminal.create (title : String) : Terminal :=
  { title := title, inputEnabled := false, applyWired := false, multiMode := false }

/-- An effect in the console-lifecycle trace, in the order the operation
performs them. -/
inductive SinkEffect where
  | disposeSink (title : String)
  | destroySink (title : String)
  | constructSink (title : String)
  | adoptPooled (name : String)
  | wireApplyHandler
  | enableInputEff
  | disableInputEff
  | printLine (text : String)
  | poolInsert (name : String)
  | closeAllRequestsEff
  | disposePanelManager
  | removeFromRegistry
  | updateButtonEff
  | applyBufferEff
deriving DecidableEq

/-- Whether an effect destroys a sink. -/
def SinkEffect.isDestroy : SinkEffect → Bool
  | .destroySink _ => true
  | _ => false

/-- Whether an effect constructs a fresh sink. -/
def SinkEffect.isConstruct : SinkEffect → Bool
  | .constructSink _ => true
  | _ => false

/-- Whether an effect adopts a pooled sink. -/
def SinkEffect.isAdopt : SinkEffect → Bool
  | .adoptPooled _ => true
  | _ => false

/-- The name-indexed reuse pool of detached consoles
(`Client.terminalHistory` in the tests): an association list from console
name to the detached sink. -/
def TerminalHistory := List (String × Terminal)

/-- Look up a pooled console by name. -/
def TerminalHistory.find (h : TerminalHistory) (name : String) : Option Terminal :=
  match h with
  | [] => Option.none
  | (n, t) :: rest => if n = name then some t else TerminalHistory.find rest name

/-- Remove the pooled console stored under `name`. -/
def TerminalHistory.remove (h : TerminalHistory) (name : String) : TerminalHistory :=
  match h with
  | [] => []
  | (n, t) :: rest =>
    if n = name then TerminalHistory.remove rest name
    else (n, t) :: TerminalHistory.remove rest name

/-- Modelled from the spec (§4.3 Console identity & reuse):
`createTerminal name` disposes the current sink, claims the pooled sink
under `name` when one exists (removing it from the pool) and otherwise
constructs a fresh sink titled `name`, then re-wires the apply handler,
enables input, pushes the Client's multi-line-mode flag onto the
now-current sink, and flushes any buffered output onto it.  Returns the
updated pool, the now-current sink, and the ordered effect trace. -/
def createTerminal (history : TerminalHistory) (current : Terminal)
    (multiMode : Bool) (name : String) :
    TerminalHistory × Terminal × List SinkEffect :=
  match TerminalHistory.find history name with
  | some t =>
    (TerminalHistory.remove history name,
     { t with applyWired := true, inputEnabled := true, multiMode := multiMode },
     [.disposeSink current.title, .adoptPooled name, .wireApplyHandler,
      .enableInputEff, .applyBufferEff])
  | Option.none =>
    (history,
     { Terminal.create name with applyWired := true, inputEnabled := true, multiMode := multiMode },
     [.disposeSink current.title, .constructSink name, .wireApplyHandler,
      .enableInputEff, .applyBufferEff])

/-- Modelled from the spec (§4.3, §4.4 Disposal): pending requests are
all cleared, input is disabled and the disconnect banner printed on the
current sink, then the sink is handed to the reuse pool keyed by the
Client's name (not destroyed), the panel manager is disposed, the Client
leaves the registry, and the status control is refreshed.  Returns the
updated pool, the closed Client state, and the ordered effect trace. -/
def dispose {α : Type} (history : TerminalHistory) (st : ClientState α)
    (name : String) (current : Terminal) :
    TerminalHistory × ClientState α × List SinkEffect :=
  ((name, current) :: history,
   { st with closed := true, requestMap := [] },
   [.closeAllRequestsEff, .disableInputEff,
    .printLine "\n⛔ 客户端已断开。下次启动游戏会复用此控制台。 ⛔\n",
    .poolInsert name, .disposePanelManager, .removeFromRegistry,
    .updateButtonEff])

/-- From the source (the module-local function at the end of the test
file): `function expect(arg0: string) raises Error('Function not
implemented.')` for every argument; it never returns normally, modelled
as always producing `Except.error`. -/
def expect (arg0 : String) : Except String Unit :=
  Except.error "Function not implemented."

/-- Where a name used inside the module resolves: to a module-scope
declaration or to a global provided by the test framework. -/
inductive Binding where
  | moduleLocal
  | globalFramework
deriving DecidableEq

/-- From the source: the function declarations made at the top level of
the module's own scope (line 535 declares `expect`). -/
def moduleScopeDecls : List String := ["expect"]

/-- JavaScript module scoping: an identifier declared at module scope
shadows any same-named global, so lookup checks the module scope first. -/
def resolveName (n : String) : Binding :=
  if n ∈ moduleScopeDecls then Binding.moduleLocal else Binding.globalFramework

/-! ### Supporting lemmas -/

/-- On an unclosed Client, a run of `request` calls allocates the ids
`requestID, requestID + 1, ...` in order, appends them to the pending
table, and leaves the Client unclosed. -/
theorem requestSeq_go {α : Type} (calls : List (String × α)) :
    ∀ st : ClientState α, st.closed = false →
      (requestSeq st calls).1.closed = false ∧
      (requestSeq st calls).1.requestID = st.requestID + calls.length ∧
      (requestSeq st calls).1.requestMap
        = st.requestMap ++ List.range' st.requestID calls.length ∧
      (requestSeq st calls).2
        = List.zipWith (fun c i => OutMsg.requestMsg c.1 i c.2) calls
            (List.range' st.requestID calls.length) := by
  induction calls with
  | nil => intro st h; simp [requestSeq, h]
  | cons c rest ih =>
    intro st h
    obtain ⟨m, p⟩ := c
    have hreq : request st m p
        = ({ st with
               requestID := st.requestID + 1,
               requestMap := st.requestMap ++ [st.requestID] },
           { sent := [.requestMsg m st.requestID p], logged := [],
             immediate := Option.none }) := by
      simp [request, h]
    have hclosed' : (request st m p).1.closed = false := by rw [hreq]; exact h
    obtain ⟨h1, h2, h3, h4⟩ := ih (request st m p).1 hclosed'
    have hrange : List.range' st.requestID (rest.length + 1)
        = st.requestID :: List.range' (st.requestID + 1) rest.length := by
      simpa using List.range'_succ st.requestID rest.length 1
    refine ⟨?_, ?_, ?_, ?_⟩
    · simpa [requestSeq] using h1
    · simp only [requestSeq, List.length_cons]
      rw [h2, hreq]
      simp
      omega
    · simp only [requestSeq, List.length_cons]
      rw [h3, hreq, hrange]
      simp
    · simp only [requestSeq, List.length_cons]
      rw [h4, hreq, hrange]
      simp

/-- Extracting the ids of a zipped run of request messages recovers the
id list, when the two lists zipped have equal length. -/
theorem filterMap_idOf_zip {α : Type} (calls : List (String × α)) :
    ∀ ids : List Nat, calls.length = ids.length →
      (List.zipWith (fun c i => OutMsg.requestMsg c.1 i c.2) calls ids).filterMap
          OutMsg.idOf = ids := by
  induction calls with
  | nil =>
    intro ids h
    cases ids with
    | nil => simp
    | cons i is => simp at h
  | cons c rest ih =>
    intro ids h
    cases ids with
    | nil => simp at h
    | cons i is =>
      simp only [List.zipWith_cons_cons, List.filterMap_cons]
      simp only [OutMsg.idOf]
      rw [ih is (by simpa using h)]

/-- Joining a one-element list of lines is that line itself. -/
theorem intercalate_singleton (t : String) : String.intercalate "\n" [t] = t := by
  simp [String.intercalate, String.intercalate.go]

/-- Every run of the print layer groups the printed texts: the writes it
issues are exactly the newline-joins of consecutive non-empty groups of
the printed texts, in order, with the still-buffered tail pending. -/
theorem printRun_grouped (evs : List PrintEv) :
    ∀ buf : Option (List String),
      ∃ groups : List (List String),
        (∀ g ∈ groups, g ≠ []) ∧
        (printRun buf evs).2 = groups.map (String.intercalate "\n") ∧
        groups.join ++ ((printRun buf evs).1.getD [])
          = buf.getD [] ++ printedTexts evs := by
  induction evs with
  | nil =>
    intro buf
    exact ⟨[], by simp, by simp [printRun], by simp [printRun, printedTexts]⟩
  | cons e es ih =>
    intro buf
    match e, buf with
    | .printCall t, Option.none =>
      obtain ⟨groups, hne, hw, hj⟩ := ih (some [])
      refine ⟨[t] :: groups, ?_, ?_, ?_⟩
      · intro g hg
        rcases List.mem_cons.mp hg with hg | hg
        · simp [hg]
        · exact hne g hg
      · simp only [printRun, printStep, List.map_cons, intercalate_singleton]
        rw [hw]
        simp
      · simp only [printRun, printStep, List.join_cons, printedTexts]
        simp only [Option.getD_some] at hj
        simp [hj]
    | .printCall t, some q =>
      obtain ⟨groups, hne, hw, hj⟩ := ih (some (q ++ [t]))
      refine ⟨groups, hne, ?_, ?_⟩
      · simp only [printRun, printStep]
        rw [hw]
        simp
      · simp only [printRun, printStep, printedTexts]
        simp only [Option.getD_some] at hj ⊢
        rw [hj]
        simp
    | .writeDone, Option.none =>
      obtain ⟨groups, hne, hw, hj⟩ := ih Option.none
      refine ⟨groups, hne, ?_, ?_⟩
      · simp only [printRun, printStep]
        rw [hw]
        simp
      · simpa [printRun, printStep, printedTexts] using hj
    | .writeDone, some [] =>
      obtain ⟨groups, hne, hw, hj⟩ := ih Option.none
      refine ⟨groups, hne, ?_, ?_⟩
      · simp only [printRun, printStep]
        rw [hw]
        simp
      · simpa [printRun, printStep, printedTexts] using hj
    | .writeDone, some (l :: ls) =>
      obtain ⟨groups, hne, hw, hj⟩ := ih (some [])
      refine ⟨(l :: ls) :: groups, ?_, ?_, ?_⟩
      · intro g hg
        rcases List.mem_cons.mp hg with hg | hg
        · simp [hg]
        · exact hne g hg
      · simp only [printRun, printStep, List.map_cons]
        rw [hw]
        simp
      · simp only [printRun, printStep, List.join_cons, printedTexts]
        simp only [Option.getD_some] at hj
        simp [hj]

/-- Removing a name from the reuse pool removes every entry under it. -/
theorem find_remove (h : TerminalHistory) (name : String) :
    TerminalHistory.find (TerminalHistory.remove h name) name = Option.none := by
  induction h with
  | nil => rfl
  | cons p rest ih =>
    obtain ⟨n, t⟩ := p
    by_cases hn : n = name
    · simpa [TerminalHistory.remove, hn] using ih
    · simpa [TerminalHistory.remove, TerminalHistory.find, hn] using ih

/-! ### Claim theorems -/

/-- Claim C1: for an inbound Response whose id matches a pending entry,
`recv` removes the entry (exactly one occurrence, and the id is gone from
the table afterwards) and resolves it: a `result` Response resolves the
future with the value, an `error` Response logs the error text and
resolves with the "no value" signal.  A second delivery of the same
Response has no effect, so the entry is never resolved twice. -/
theorem recv_matched_response_resolves {α : Type}
    (methods : String → Option (α → Except String Unit))
    (requests : String → Option (α → Except String α))
    (st : ClientState α) (id : Nat) (v : α) (e : String)
    (hmem : id ∈ st.requestMap) (hnd : st.requestMap.Nodup) :
    recv methods requests st (.responseResult id v)
        = ({ st with requestMap := st.requestMap.erase id },
           { (RecvOut.none α) with resolved := [(id, some v)] })
    ∧ recv methods requests st (.responseError id e)
        = ({ st with requestMap := st.requestMap.erase id },
           { (RecvOut.none α) with
               resolved := [(id, Option.none)],
               logged := [e] })
    ∧ id ∉ (recv methods requests st (.responseResult id v)).1.requestMap
    ∧ (recv methods requests st (.responseResult id v)).1.requestMap.length + 1
        = st.requestMap.length
    ∧ recv methods requests (recv methods requests st (.responseResult id v)).1
        (.responseResult id v)
        = ((recv methods requests st (.responseResult id v)).1, RecvOut.none α) := by
  have h1 : recv methods requests st (.responseResult id v)
      = ({ st with requestMap := st.requestMap.erase id },
         { (RecvOut.none α) with resolved := [(id, some v)] }) := by
    simp [recv, hmem]
  have hout : id ∉ st.requestMap.erase id := hnd.not_mem_erase
  refine ⟨h1, by simp [recv, hmem], ?_, ?_, ?_⟩
  · rw [h1]; exact hout
  · rw [h1]; exact List.length_erase_add_one hmem
  · rw [h1]; simp [recv, hout]

/-- Claim C1 witness: a concrete pending entry is removed and resolved. -/
theorem recv_matched_response_resolves_witness :
    (0 ∈ ({ requestID := 1, requestMap := [0], closed := false,
            printBuffer := Option.none } : ClientState Nat).requestMap)
    ∧ (recv (fun _ => Option.none) (fun _ => Option.none)
        { requestID := 1, requestMap := [0], closed := false,
          printBuffer := Option.none } (.responseResult 0 7)).2.resolved
        = [(0, some 7)] := by
  have h := recv_matched_response_resolves (α := Nat)
    (fun _ => Option.none) (fun _ => Option.none)
    { requestID := 1, requestMap := [0], closed := false,
      printBuffer := Option.none } 0 7 "boom" (by decide) (by decide)
  exact ⟨by decide, by rw [h.1]⟩

/-- Claim C2: on a fresh (undisposed) Client, a sequence of N `request`
calls sends messages carrying exactly the ids 0, 1, ..., N-1 in call
order, each unique, and the pending-request table ends holding exactly
those N ids. -/
theorem request_id_sequence {α : Type} (calls : List (String × α)) :
    (requestSeq (initClient α) calls).2.filterMap OutMsg.idOf
        = List.range calls.length
    ∧ ((requestSeq (initClient α) calls).2.filterMap OutMsg.idOf).Nodup
    ∧ (requestSeq (initClient α) calls).1.requestMap = List.range calls.length
    ∧ (requestSeq (initClient α) calls).2
        = List.zipWith (fun c i => OutMsg.requestMsg c.1 i c.2) calls
            (List.range calls.length) := by
  obtain ⟨-, -, hmap, hsent⟩ := requestSeq_go calls (initClient α) rfl
  have hr : List.range' (initClient α).requestID calls.length
      = List.range calls.length := by
    rw [List.range_eq_range']
    rfl
  have hids : (requestSeq (initClient α) calls).2.filterMap OutMsg.idOf
      = List.range calls.length := by
    rw [hsent, hr]
    exact filterMap_idOf_zip calls (List.range calls.length)
      (by simp)
  refine ⟨hids, ?_, ?_, ?_⟩
  · rw [hids]; exact List.nodup_range _
  · rw [hmap, hr]; simp [initClient]
  · rw [hsent, hr]

/-- Claim C3: with no buffer, `print` writes to the sink at once and
marks a flush in flight; while a write is outstanding, `print` only
appends to the buffer; when the outstanding write completes, a non-empty
buffer is flushed as one single write of the queued lines joined by
newlines, and an empty buffer is simply cleared; every step issues at
most one write and only while marked in flight, and over any run the
writes are the newline-joins of consecutive groups of the printed lines
in exact call order. -/
theorem print_buffering_correct :
    (∀ t : String, printStep Option.none (.printCall t) = (some [], [t]))
    ∧ (∀ (q : List String) (t : String),
        printStep (some q) (.printCall t) = (some (q ++ [t]), []))
    ∧ (∀ (l : String) (ls : List String),
        printStep (some (l :: ls)) .writeDone
          = (some [], [String.intercalate "\n" (l :: ls)]))
    ∧ printStep (some []) .writeDone = (Option.none, [])
    ∧ (∀ (buf : Option (List String)) (e : PrintEv),
        (printStep buf e).2.length ≤ 1
        ∧ ((printStep buf e).2 = [] ∨ (printStep buf e).1 = some []))
    ∧ (∀ evs : List PrintEv,
        ∃ groups : List (List String),
          (∀ g ∈ groups, g ≠ []) ∧
          (printRun Option.none evs).2 = groups.map (String.intercalate "\n") ∧
          groups.join ++ ((printRun Option.none evs).1.getD [])
            = printedTexts evs) := by
  refine ⟨fun t => rfl, fun q t => rfl, fun l ls => rfl, rfl, ?_, ?_⟩
  · intro buf e
    match e, buf with
    | .printCall t, Option.none => simp [printStep]
    | .printCall t, some q => simp [printStep]
    | .writeDone, Option.none => simp [printStep]
    | .writeDone, some [] => simp [printStep]
    | .writeDone, some (l :: ls) => simp [printStep]
  · intro evs
    simpa using printRun_grouped evs Option.none

/-- Claim C4: on disposal the current Output Sink is demoted into the
name-indexed reuse pool under the Client's name and is not destroyed
(never both), and disabling input and printing the disconnect banner
happen before the handoff in the effect order. -/
theorem dispose_demotes_sink {α : Type} (history : TerminalHistory)
    (st : ClientState α) (name : String) (t : Terminal) :
    TerminalHistory.find (dispose history st name t).1 name = some t
    ∧ (dispose history st name t).2.2.filter SinkEffect.isDestroy = []
    ∧ SinkEffect.poolInsert name ∈ (dispose history st name t).2.2
    ∧ ∃ pre post,
        (dispose history st name t).2.2
          = pre ++ SinkEffect.poolInsert name :: post
        ∧ SinkEffect.disableInputEff ∈ pre
        ∧ SinkEffect.printLine "\n⛔ 客户端已断开。下次启动游戏会复用此控制台。 ⛔\n"
            ∈ pre := by
  refine ⟨?_, rfl, ?_, ?_⟩
  · simp [dispose, TerminalHistory.find]
  · simp [dispose]
  · refine ⟨[SinkEffect.closeAllRequestsEff, SinkEffect.disableInputEff,
      SinkEffect.printLine "\n⛔ 客户端已断开。下次启动游戏会复用此控制台。 ⛔\n"],
      [SinkEffect.disposePanelManager, SinkEffect.removeFromRegistry,
       SinkEffect.updateButtonEff], rfl, by simp, by simp⟩

/-- Claim C5: `recv` on a Request for an unregistered method replies
exactly `{id, error: 未找到方法"method"}` carrying the request's id and
method name, logs nothing, and leaves the Client state unchanged. -/
theorem recv_unknown_method_replies {α : Type}
    (methods : String → Option (α → Except String Unit))
    (requests : String → Option (α → Except String α))
    (st : ClientState α) (id : Nat) (method : String) (params : α)
    (h : requests method = Option.none) :
    recv methods requests st (.request method id params)
      = (st, { (RecvOut.none α) with
                 sent := [.errorResp id ("未找到方法\"" ++ method ++ "\"")] }) := by
  simp [recv, h]

/-- Claim C5 witness: the concrete not-found reply of the test. -/
theorem recv_unknown_method_replies_witness :
    ((fun _ => Option.none : String → Option (Nat → Except String Nat))
        "unknownRequest" = Option.none)
    ∧ (recv (fun _ => Option.none) (fun _ => Option.none)
        (initClient Nat) (.request "unknownRequest" 125 0)).2.sent
        = [.errorResp 125 "未找到方法\"unknownRequest\""] := by
  have h := recv_unknown_method_replies (α := Nat)
    (fun _ => Option.none) (fun _ => Option.none)
    (initClient Nat) 125 "unknownRequest" 0 rfl
  exact ⟨rfl, by rw [h]; rfl⟩

/-- Claim C6: `recv` on a Request whose registered handler throws logs
the failure's message text, replies exactly `{id, error: message}`, and
returns normally with the Client state unchanged (the failure never
propagates out). -/
theorem recv_handler_throws_logs {α : Type}
    (methods : String → Option (α → Except String Unit))
    (requests : String → Option (α → Except String α))
    (st : ClientState α) (id : Nat) (method : String) (params : α)
    (f : α → Except String α) (e : String)
    (hf : requests method = some f) (he : f params = Except.error e) :
    recv methods requests st (.request method id params)
      = (st, { (RecvOut.none α) with
                 sent := [.errorResp id e],
                 logged := [e],
                 invoked := [(method, params)] }) := by
  simp [recv, hf, he]

/-- Claim C6 witness: the concrete throwing handler of the test. -/
theorem recv_handler_throws_logs_witness :
    ((fun _ => some (fun _ => Except.error "Handler failed")
        : String → Option (Nat → Except String Nat)) "testRequest"
      = some (fun _ => Except.error "Handler failed"))
    ∧ (recv (fun _ => Option.none)
        (fun _ => some (fun _ => Except.error "Handler failed"))
        (initClient Nat) (.request "testRequest" 124 0)).2
        = { (RecvOut.none Nat) with
              sent := [.errorResp 124 "Handler failed"],
              logged := ["Handler failed"],
              invoked := [("testRequest", 0)] } := by
  have h := recv_handler_throws_logs (α := Nat)
    (fun _ => Option.none)
    (fun _ => some (fun _ => Except.error "Handler failed"))
    (initClient Nat) 124 "testRequest" 0
    (fun _ => Except.error "Handler failed") "Handler failed" rfl rfl
  exact ⟨rfl, by rw [h]⟩

/-- Claim C7: on a closed Client, `request` resolves immediately to the
"no value" signal, sends nothing, logs nothing, and leaves the state
(in particular the pending-request table) unchanged. -/
theorem request_closed_noop {α : Type} (st : ClientState α)
    (method : String) (params : α) (h : st.closed = true) :
    request st method params
      = (st, { sent := [], logged := [], immediate := some Option.none }) := by
  simp [request, h]

/-- Claim C7 witness: the concrete closed Client of the test. -/
theorem request_closed_noop_witness :
    (({ requestID := 0, requestMap := [], closed := true,
        printBuffer := Option.none } : ClientState Nat).closed = true)
    ∧ request ({ requestID := 0, requestMap := [], closed := true,
                 printBuffer := Option.none } : ClientState Nat) "closedMethod" 0
        = ({ requestID := 0, requestMap := [], closed := true,
             printBuffer := Option.none },
           { sent := [], logged := [], immediate := some Option.none }) :=
  ⟨rfl, request_closed_noop _ "closedMethod" 0 rfl⟩

/-- Claim C8: an inbound Notification for an unregistered method, and an
inbound Response whose id matches no pending entry, produce no
observable effect: nothing sent, nothing logged, no resolution, state
unchanged, and `recv` returns normally. -/
theorem recv_silent_drops {α : Type}
    (methods : String → Option (α → Except String Unit))
    (requests : String → Option (α → Except String α))
    (st : ClientState α) (method : String) (params : α)
    (id : Nat) (v : α) (e : String) :
    (methods method = Option.none →
      recv methods requests st (.notif method params) = (st, RecvOut.none α))
    ∧ (id ∉ st.requestMap →
        recv methods requests st (.responseResult id v) = (st, RecvOut.none α)
        ∧ recv methods requests st (.responseError id e)
            = (st, RecvOut.none α)) := by
  constructor
  · intro h; simp [recv, h]
  · intro h; exact ⟨by simp [recv, h], by simp [recv, h]⟩

/-- Claim C8 witness: the unknown notification and the unmatched
response of the tests are both dropped silently. -/
theorem recv_silent_drops_witness :
    recv (fun _ => Option.none) (fun _ => Option.none) (initClient Nat)
        (.notif "unknownNotify" 0) = (initClient Nat, RecvOut.none Nat)
    ∧ recv (fun _ => Option.none) (fun _ => Option.none) (initClient Nat)
        (.responseResult 999 1) = (initClient Nat, RecvOut.none Nat)
    ∧ recv (fun _ => Option.none) (fun _ => Option.none) (initClient Nat)
        (.responseError 999 "x") = (initClient Nat, RecvOut.none Nat) := by
  have h := recv_silent_drops (α := Nat)
    (fun _ => Option.none) (fun _ => Option.none) (initClient Nat)
    "unknownNotify" 0 999 1 "x"
  exact ⟨h.1 rfl, (h.2 (by decide)).1, (h.2 (by decide)).2⟩

/-- Claim C9: `createTerminal name` first disposes the current sink;
when the reuse pool holds a sink under `name` it adopts that sink,
removes it from the pool, and constructs nothing fresh; otherwise it
constructs a fresh sink titled `name`; in both cases the apply handler,
input enabling and the multi-line-mode flag are re-wired onto the
now-current sink and the buffered output is flushed onto it. -/
theorem createTerminal_spec (history : TerminalHistory) (current : Terminal)
    (mm : Bool) (name : String) :
    (createTerminal history current mm name).2.2.head?
        = some (.disposeSink current.title)
    ∧ (∀ t, TerminalHistory.find history name = some t →
        (createTerminal history current mm name).1
            = TerminalHistory.remove history name
        ∧ TerminalHistory.find (createTerminal history current mm name).1 name
            = Option.none
        ∧ (createTerminal history current mm name).2.1
            = { t with applyWired := true, inputEnabled := true, multiMode := mm }
        ∧ SinkEffect.adoptPooled name ∈ (createTerminal history current mm name).2.2
        ∧ (createTerminal history current mm name).2.2.filter
            SinkEffect.isConstruct = [])
    ∧ (TerminalHistory.find history name = Option.none →
        (createTerminal history current mm name).2.1
            = { Terminal.create name with
                  applyWired := true,
                  inputEnabled := true,
                  multiMode := mm }
        ∧ SinkEffect.constructSink name ∈ (createTerminal history current mm name).2.2
        ∧ (createTerminal history current mm name).2.2.filter
            SinkEffect.isAdopt = [])
    ∧ ((createTerminal history current mm name).2.1.applyWired = true
        ∧ (createTerminal history current mm name).2.1.inputEnabled = true
        ∧ (createTerminal history current mm name).2.1.multiMode = mm
        ∧ SinkEffect.wireApplyHandler ∈ (createTerminal history current mm name).2.2
        ∧ SinkEffect.enableInputEff ∈ (createTerminal history current mm name).2.2
        ∧ SinkEffect.applyBufferEff ∈ (createTerminal history current mm name).2.2) := by
  rcases hfind : TerminalHistory.find history name with - | t
  · refine ⟨by simp [createTerminal, hfind], ?_, ?_, ?_⟩
    · intro t' ht'
      exact Option.noConfusion ht'
    · intro _
      refine ⟨by simp [createTerminal, hfind], by simp [createTerminal, hfind],
        by simp [createTerminal, hfind, SinkEffect.isAdopt]⟩
    · refine ⟨by simp [createTerminal, hfind], by simp [createTerminal, hfind],
        by simp [createTerminal, hfind], by simp [createTerminal, hfind],
        by simp [createTerminal, hfind], by simp [createTerminal, hfind]⟩
  · refine ⟨by simp [createTerminal, hfind], ?_, ?_, ?_⟩
    · intro t' ht'
      injection ht' with h2
      subst h2
      refine ⟨by simp [createTerminal, hfind], ?_,
        by simp [createTerminal, hfind], by simp [createTerminal, hfind],
        by simp [createTerminal, hfind, SinkEffect.isConstruct]⟩
      have hp : (createTerminal history current mm name).1
          = TerminalHistory.remove history name := by
        simp [createTerminal, hfind]
      rw [hp]
      exact find_remove history name
    · intro h
      exact Option.noConfusion h
    · refine ⟨by simp [createTerminal, hfind], by simp [createTerminal, hfind],
        by simp [createTerminal, hfind], by simp [createTerminal, hfind],
        by simp [createTerminal, hfind], by simp [createTerminal, hfind]⟩

/-- Claim C9 witness: adopting the pooled console under a matching name,
and constructing a fresh one when the pool misses. -/
theorem createTerminal_spec_witness :
    (createTerminal [("History Name", Terminal.create "History Term")]
        (Terminal.create "Y3控制台") false "History Name").2.1
      = { Terminal.create "History Term" with
            applyWired := true,
            inputEnabled := true,
            multiMode := false }
    ∧ (createTerminal [("History Name", Terminal.create "History Term")]
        (Terminal.create "Y3控制台") false "History Name").2.2.filter
        SinkEffect.isConstruct = []
    ∧ SinkEffect.constructSink "Another Name"
        ∈ (createTerminal [] (Terminal.create "Y3控制台") false "Another Name").2.2 := by
  obtain ⟨-, hpool, -, -⟩ := createTerminal_spec
    [("History Name", Terminal.create "History Term")]
    (Terminal.create "Y3控制台") false "History Name"
  obtain ⟨-, -, hterm, -, hnoc⟩ := hpool (Terminal.create "History Term") rfl
  obtain ⟨-, -, hmiss, -⟩ := createTerminal_spec []
    (Terminal.create "Y3控制台") false "Another Name"
  obtain ⟨-, hcons, -⟩ := hmiss rfl
  exact ⟨hterm, hnoc, hcons⟩

/-- Claim C10: the module-local `expect` declared at the end of the
source file raises `Function not implemented.` for every string argument
and never returns normally, and—being a module-scope declaration—it
shadows the test framework's global assertion function, so name
resolution inside the file reaches the stub. -/
theorem expect_always_throws :
    (∀ s : String, expect s = Except.error "Function not implemented.")
    ∧ resolveName "expect" = Binding.moduleLocal :=
  ⟨fun _ => rfl, by decide⟩

end ClientSpec
